import Mathlib

/-!
# Verification of the session/message persistence core (`database.py`)

Shallow embedding of the persistence layer of the repository:

* `students`, `sessions`, `messages` tables are lists of records;
* `CURRENT_TIMESTAMP` is a logical clock (`Nat`) on the database state,
  advanced once per transactional operation (each helper in `database.py`
  opens its own transaction, so successive operations observe strictly
  increasing timestamps);
* SQL `ORDER BY` is a stable insertion sort on the relevant key;
* auto-increment primary keys are modelled with `nextStudentId` /
  `nextMessageId` counters;
* the `uuid.uuid4()` session token is nondeterministic in the source and is
  passed as an explicit argument here;
* `strftime("%Y-%m-%d %H:%M:%S")` presentation of timestamps is kept as the
  raw logical time (the formatting is injective presentation-only glue);
* read-only helpers (`get_conversation_history`, `get_user_sessions`,
  `session_exists`, `get_session_name`) issue only `SELECT` statements, so
  they are embedded as pure functions of the state: they cannot modify it.
-/

/-- A row of the `students` table. -/
structure Student where
  student_id : Nat
  email : String
  name : String
  created_at : Nat
  last_login : Nat
deriving DecidableEq, Repr

/-- A row of the `sessions` table. -/
structure Session where
  session_id : String
  student_id : Nat
  ai_client_type : String
  created_at : Nat
  status : String
deriving DecidableEq, Repr

/-- A row of the `messages` table. -/
structure Message where
  message_id : Nat
  session_id : String
  sender_type : String
  content : String
  sequence_number : Nat
  created_at : Nat
deriving DecidableEq, Repr

/-- The persisted database state, plus the logical clock and the
auto-increment counters. -/
structure DB where
  students : List Student
  sessions : List Session
  messages : List Message
  clock : Nat
  nextStudentId : Nat
  nextMessageId : Nat
deriving DecidableEq, Repr

/-- Stable insertion into a list sorted by the boolean preorder `le`
(`x` is placed before the first element `y` with `le x y`). -/
def insertLe (le : α → α → Bool) (x : α) : List α → List α
  | [] => [x]
  | y :: ys => if le x y then x :: y :: ys else y :: insertLe le x ys

/-- Stable insertion sort: the model of SQL `ORDER BY`. -/
def sortLe (le : α → α → Bool) : List α → List α
  | [] => []
  | x :: xs => insertLe le x (sortLe le xs)

/-- `SELECT student_id FROM students WHERE email = %s` followed by
`fetchone()`: the first matching row. -/
def findStudent (email : String) (students : List Student) : Option Student :=
  students.find? (fun st => st.email == email)

/-- `get_or_create_student(email, name)` from `database.py`:
look the student up by exact email; if found, set `last_login` to the
current time and return the existing id (the stored name is untouched);
otherwise insert a new row with `created_at = last_login = now` and return
the fresh id.  One transaction, so the clock advances by one. -/
def get_or_create_student (email name : String) (db : DB) : Nat × DB :=
  match findStudent email db.students with
  | some st =>
      (st.student_id,
       { db with
           students := db.students.map (fun s =>
             if s.student_id == st.student_id then { s with last_login := db.clock } else s),
           clock := db.clock + 1 })
  | none =>
      (db.nextStudentId,
       { db with
           students := db.students ++
             [{ student_id := db.nextStudentId, email := email, name := name,
                created_at := db.clock, last_login := db.clock }],
           nextStudentId := db.nextStudentId + 1,
           clock := db.clock + 1 })

/-- `create_session(student_id, ai_client_type)` from `database.py`:
count the student's existing sessions, name the new session
`Session-{count+1}`, insert the row with `status = 'active'`, and return
`(session_id, session_name)`.  The fresh UUID is the argument `sid`. -/
def create_session (student_id : Nat) (ai_client_type sid : String) (db : DB) :
    (String × String) × DB :=
  let count := (db.sessions.filter (fun s => s.student_id == student_id)).length
  let session_name := "Session-" ++ toString (count + 1)
  ((sid, session_name),
   { db with
       sessions := db.sessions ++
         [{ session_id := sid, student_id := student_id, ai_client_type := ai_client_type,
            created_at := db.clock, status := "active" }],
       clock := db.clock + 1 })

/-- `WHERE session_id = %s` on the `messages` table: the session's messages
in store order. -/
def msgsOf (sid : String) (db : DB) : List Message :=
  db.messages.filter (fun m => m.session_id == sid)

/-- First half of `save_message`: `SELECT COALESCE(MAX(sequence_number), 0) + 1
FROM messages WHERE session_id = %s`. -/
def nextSeq (session_id : String) (db : DB) : Nat :=
  (msgsOf session_id db).foldl (fun acc m => max acc m.sequence_number) 0 + 1

/-- Second half of `save_message`: the `INSERT INTO messages` statement with a
given sequence number. -/
def insertMessageRow (session_id sender_type content : String) (seq : Nat) (db : DB) : DB :=
  { db with
      messages := db.messages ++
        [{ message_id := db.nextMessageId, session_id := session_id,
           sender_type := sender_type, content := content,
           sequence_number := seq, created_at := db.clock }],
      nextMessageId := db.nextMessageId + 1,
      clock := db.clock + 1 }

/-- `save_message(session_id, sender_type, content)` from `database.py`:
read the per-session maximum sequence number, add one, insert the message. -/
def save_message (session_id sender_type content : String) (db : DB) : DB :=
  insertMessageRow session_id sender_type content (nextSeq session_id db) db

/-- One entry of the list returned by `get_conversation_history`. -/
structure HistEntry where
  role : String
  content : String
  timestamp : Nat
deriving DecidableEq, Repr

/-- `get_conversation_history(session_id)` from `database.py`:
all messages of the session, `ORDER BY sequence_number ASC`, each projected
to `{role, content, timestamp}`. -/
def get_conversation_history (session_id : String) (db : DB) : List HistEntry :=
  ((sortLe (fun a b => decide (a.sequence_number ≤ b.sequence_number))
      (msgsOf session_id db)).map
    (fun m => { role := m.sender_type, content := m.content, timestamp := m.created_at }))

/-- The `JOIN students st ON s.student_id = st.student_id WHERE st.email = %s`
condition used by `get_user_sessions` and `get_session_name`. -/
def ownedBy (email : String) (students : List Student) (s : Session) : Bool :=
  students.any (fun st => st.student_id == s.student_id && st.email == email)

/-- One entry of the list returned by `get_user_sessions`. -/
structure SessionEntry where
  session_id : String
  session_name : String
  created_at : Nat
  message_count : Nat
deriving DecidableEq, Repr

/-- The `for idx, session in enumerate(sessions)` loop of `get_user_sessions`:
the row at offset `idx` is displayed as `Session-{total - idx}`, with its
`LEFT JOIN` message count. -/
def nameSessions (db : DB) (total : Nat) : Nat → List Session → List SessionEntry
  | _, [] => []
  | idx, s :: rest =>
      { session_id := s.session_id,
        session_name := "Session-" ++ toString (total - idx),
        created_at := s.created_at,
        message_count := (db.messages.filter (fun m => m.session_id == s.session_id)).length }
        :: nameSessions db total (idx + 1) rest

/-- `get_user_sessions(email)` from `database.py`: the student's sessions
with message counts, `ORDER BY created_at DESC`, display names derived as
`Session-{len(sessions) - idx}`. -/
def get_user_sessions (email : String) (db : DB) : List SessionEntry :=
  let sessions := sortLe (fun a b => decide (b.created_at ≤ a.created_at))
    (db.sessions.filter (ownedBy email db.students))
  nameSessions db sessions.length 0 sessions

/-- `session_exists(session_id)` from `database.py`. -/
def session_exists (session_id : String) (db : DB) : Bool :=
  db.sessions.any (fun s => s.session_id == session_id)

/-- `get_session_name(session_id, email)` from `database.py`: find the
session joined with its owning student by email; if present, the displayed
number is the count of the student's sessions with
`s2.created_at >= s.created_at`. -/
def get_session_name (session_id email : String) (db : DB) : Option String :=
  match db.sessions.find? (fun s => s.session_id == session_id && ownedBy email db.students s) with
  | none => none
  | some s =>
      some ("Session-" ++ toString
        ((db.sessions.filter (fun s2 =>
            ownedBy email db.students s2 && decide (s.created_at ≤ s2.created_at))).length))

/-- `get_db_connection()` from `database.py`, as an explicit transaction
bracket: `try: yield conn; conn.commit() / except: conn.rollback(); raise /
finally: conn.close()`.  The body `fn` works on the connection's view of the
state and either returns a new state with a value or raises.  The result is
`(outcome, persisted state afterwards, connection released?)`. -/
def get_db_connection (persisted : DB) (fn : DB → Except String (DB × α)) :
    Except String α × DB × Bool :=
  match fn persisted with
  | Except.ok (db2, a) => (Except.ok a, db2, true)
  | Except.error e => (Except.error e, persisted, true)

/-- The input-validation chain of `start_session` in the Gradio frontend
(`grado_frontend_tillDB&SP.py`): empty email, empty name, then the basic
`"@" in email and "." in email` check, each rejected with its message before
any backend or storage call is made.  `none` means validation passed. -/
def start_session_validation (email name : String) : Option String :=
  if email == "" || email.trim == "" then some "Please enter your email"
  else if name == "" || name.trim == "" then some "Please enter your name"
  else if !(email.contains '@') || !(email.contains '.') then
    some "Please enter a valid email address"
  else none

/-- Sequential batch of `create_session` calls for one student, returning the
list of `(session_id, session_name)` results and the final state. -/
def createSessions (student_id : Nat) (act : String) (sids : List String) (db : DB) :
    List (String × String) × DB :=
  match sids with
  | [] => ([], db)
  | sid :: rest =>
      let r := create_session student_id act sid db
      let rs := createSessions student_id act rest r.2
      (r.1 :: rs.1, rs.2)

/-- The session rows that a `createSessions` batch inserts, with `created_at`
stamped `t, t+1, …`. -/
def newSessions (student_id : Nat) (act : String) : List String → Nat → List Session
  | [], _ => []
  | sid :: rest, t =>
      { session_id := sid, student_id := student_id, ai_client_type := act,
        created_at := t, status := "active" } :: newSessions student_id act rest (t + 1)

/-- Specification-side naming: the i-th created session (1-based, offset by
`b`) is displayed as `Session-{b+i}`. -/
def expectedNames : List String → Nat → List (String × String)
  | [], _ => []
  | sid :: rest, b => (sid, "Session-" ++ toString (b + 1)) :: expectedNames rest (b + 1)

/-- Sequential batch of `save_message` calls on one session,
`msgs = [(sender_type, content), …]`. -/
def saveMessages (sid : String) (msgs : List (String × String)) (db : DB) : DB :=
  match msgs with
  | [] => db
  | (sender, content) :: rest => saveMessages sid rest (save_message sid sender content db)

/-- An empty database state. -/
def emptyDB : DB :=
  { students := [], sessions := [], messages := [], clock := 0,
    nextStudentId := 1, nextMessageId := 1 }

/-- A state with one registered student and nothing else. -/
def aliceDB : DB :=
  { emptyDB with
      students := [{ student_id := 1, email := "alice@example.com", name := "Alice",
                     created_at := 0, last_login := 0 }],
      clock := 1, nextStudentId := 2 }

/-- A state with one student owning one (message-free) session. -/
def raceDB : DB :=
  { emptyDB with
      students := [{ student_id := 1, email := "alice@example.com", name := "Alice",
                     created_at := 0, last_login := 0 }],
      sessions := [{ session_id := "s1", student_id := 1, ai_client_type := "Pritam",
                     created_at := 1, status := "active" }],
      clock := 2, nextStudentId := 2 }

/-- The racy interleaving of two `save_message` calls on the same session:
both executions run the `SELECT COALESCE(MAX(sequence_number), 0) + 1` read
before either runs its `INSERT`. -/
def interleavedAppends : DB :=
  let n1 := nextSeq "s1" raceDB
  let n2 := nextSeq "s1" raceDB
  insertMessageRow "s1" "assistant" "there there" n2
    (insertMessageRow "s1" "user" "hello" n1 raceDB)

/-- A state where `alice@example.com` owns session `s1` and a second student
`bob@example.com` exists with no sessions. -/
def twoStudentsDB : DB :=
  { raceDB with
      students := raceDB.students ++
        [{ student_id := 2, email := "bob@example.com", name := "Bob",
           created_at := 1, last_login := 1 }],
      nextStudentId := 3 }

example : (create_session 1 "Pritam" "s1" aliceDB).1.2 = "Session-1" := by decide

example :
    (get_user_sessions "alice@example.com"
      (createSessions 1 "Pritam" ["s1", "s2", "s3"] aliceDB).2).map
        (fun e => (e.session_id, e.session_name)) =
    [("s3", "Session-3"), ("s2", "Session-2"), ("s1", "Session-1")] := by decide

example :
    get_session_name "s1" "alice@example.com"
      (createSessions 1 "Pritam" ["s1", "s2"] aliceDB).2 = some "Session-2" := by decide

example :
    (get_conversation_history "s1"
      (saveMessages "s1" [("user", "hi"), ("assistant", "lo")]
        (create_session 1 "Pritam" "s1" aliceDB).2)).map (fun e => (e.role, e.content)) =
    [("user", "hi"), ("assistant", "lo")] := by decide

/-! ## Helper lemmas about the `ORDER BY` model -/

theorem insertLe_front (le : α → α → Bool) (x : α) (l : List α)
    (h : ∀ y, l.head? = some y → le x y = true) : insertLe le x l = x :: l := by
  cases l with
  | nil => rfl
  | cons y ys => simp [insertLe, h y rfl]

theorem insertLe_last (le : α → α → Bool) (x : α) (l : List α)
    (h : ∀ y ∈ l, le x y = false) : insertLe le x l = l ++ [x] := by
  induction l with
  | nil => rfl
  | cons y ys ih =>
      have hy : le x y = false := h y (by simp)
      simp only [insertLe, hy, Bool.false_eq_true, if_false, List.cons_append]
      rw [ih (fun z hz => h z (by simp [hz]))]

theorem sortLe_of_chain (le : α → α → Bool) :
    ∀ l : List α, List.Chain' (fun a b => le a b = true) l → sortLe le l = l
  | [], _ => rfl
  | x :: xs, h => by
      rw [List.chain'_cons'] at h
      rw [sortLe, sortLe_of_chain le xs h.2]
      exact insertLe_front le x xs (fun y hy => h.1 y (by simp [hy]))

theorem sortLe_reverse_of_pairwise (le : α → α → Bool) :
    ∀ l : List α, List.Pairwise (fun a b => le a b = false) l → sortLe le l = l.reverse
  | [], _ => rfl
  | x :: xs, h => by
      rw [List.pairwise_cons] at h
      rw [sortLe, sortLe_reverse_of_pairwise le xs h.2, List.reverse_cons]
      exact insertLe_last le x xs.reverse (fun y hy => h.1 y (List.mem_reverse.mp hy))

theorem chain_lt_range' : ∀ (n s : Nat), List.Chain' (fun a b => a < b) (List.range' s n)
  | 0, _ => List.chain'_nil
  | n + 1, s => by
      rw [List.range'_succ, List.chain'_cons']
      refine ⟨?_, chain_lt_range' n (s + 1)⟩
      intro y hy
      cases n with
      | zero => simp at hy
      | succ m =>
          rw [List.range'_succ] at hy
          simp only [List.head?_cons, Option.mem_def, Option.some.injEq] at hy
          omega

/-! ## Claim theorems (with their supporting lemmas) -/

/-- **C2** (code bug, evaluation at the failing input): for the student
`alice@example.com` who created sessions `s1` then `s2`, `create_session`
named `s1` `Session-1` and `s2` `Session-2`, and `get_user_sessions` agrees,
but `get_session_name` — counting the student's sessions with
`created_at >= s1.created_at` — reports the inverted rank `Session-2` for
`s1` and `Session-1` for `s2`. -/
theorem C2_get_session_name_inverted :
    (create_session 1 "Pritam" "s1" aliceDB).1.2 = "Session-1" ∧
    (create_session 1 "Pritam" "s2" (create_session 1 "Pritam" "s1" aliceDB).2).1.2
      = "Session-2" ∧
    get_session_name "s1" "alice@example.com"
      (createSessions 1 "Pritam" ["s1", "s2"] aliceDB).2 = some "Session-2" ∧
    get_session_name "s2" "alice@example.com"
      (createSessions 1 "Pritam" ["s1", "s2"] aliceDB).2 = some "Session-1" ∧
    (get_user_sessions "alice@example.com"
        (createSessions 1 "Pritam" ["s1", "s2"] aliceDB).2).map
      (fun e => (e.session_id, e.session_name))
      = [("s2", "Session-2"), ("s1", "Session-1")] := by
  decide

/-- **C4** (counterexample): the interleaving in which both `save_message`
executions run their max-sequence read before either runs its insert gives
both messages sequence number 1: the claimed atomicity fails. -/
theorem C4_counterexample_duplicate_sequence :
    (interleavedAppends.messages.map (fun m => m.sequence_number)) = [1, 1] ∧
    ¬ (interleavedAppends.messages.map (fun m => m.sequence_number)).Nodup := by
  decide

/-- **C4** (amended): only *serialized* appends are safe — the second of two
sequential `save_message` calls on a session always assigns exactly one more
than the first, so sequential appends never duplicate a sequence number. -/
theorem C4_sequential_appends_distinct (db : DB) (sid sender content : String) :
    nextSeq sid (save_message sid sender content db) = nextSeq sid db + 1 := by
  simp only [save_message, insertMessageRow, nextSeq, msgsOf, List.filter_append,
    List.foldl_append]
  simp [Nat.max_eq_right (Nat.le_succ _)]

/-- **C6**: `get_db_connection` commits the transactional state when the body
completes normally, restores the persisted state and propagates the failure
when the body raises, and releases the connection on both exit paths. -/
theorem C6_connection_scope {α : Type} (persisted : DB)
    (fn : DB → Except String (DB × α)) :
    (get_db_connection persisted fn).2.2 = true ∧
    ((get_db_connection persisted fn).1 =
      match fn persisted with
      | Except.ok p => Except.ok p.2
      | Except.error e => Except.error e) ∧
    ((get_db_connection persisted fn).2.1 =
      match fn persisted with
      | Except.ok p => p.1
      | Except.error _ => persisted) := by
  unfold get_db_connection
  cases h : fn persisted with
  | ok p => cases p with | mk db2 a => simp
  | error e => simp

/-- **C7**: absence is a result, never a failure: an empty history for a
message-free session, `false` for an unknown session id, `none` for an
unknown session id in `get_session_name`.  The three reads are pure
functions of the state, so the store is unchanged by construction. -/
theorem C7_absence_is_a_result (db : DB) (sid1 sid2 sid3 email : String)
    (h1 : msgsOf sid1 db = [])
    (h2 : ∀ s ∈ db.sessions, s.session_id ≠ sid2)
    (h3 : ∀ s ∈ db.sessions, s.session_id ≠ sid3) :
    get_conversation_history sid1 db = [] ∧
    session_exists sid2 db = false ∧
    get_session_name sid3 email db = none := by
  refine ⟨?_, ?_, ?_⟩
  · unfold get_conversation_history
    rw [h1]
    rfl
  · unfold session_exists
    rw [List.any_eq_false]
    intro s hs
    simp [h2 s hs]
  · unfold get_session_name
    have hnone : db.sessions.find?
        (fun s => s.session_id == sid3 && ownedBy email db.students s) = none := by
      rw [List.find?_eq_none]
      intro s hs
      simp [h3 s hs]
    rw [hnone]

theorem C7_witness :
    get_conversation_history "a" emptyDB = [] ∧
    session_exists "b" emptyDB = false ∧
    get_session_name "c" "alice@example.com" emptyDB = none :=
  C7_absence_is_a_result emptyDB "a" "b" "c" "alice@example.com"
    (by decide) (by decide) (by decide)

/-- **C9** (counterexample): `get_or_create_student` called with the empty
email on the empty store does access storage and creates a student row whose
email is `""` — the operation neither fails nor refuses. -/
theorem C9_counterexample_empty_email_row :
    (get_or_create_student "" "Bob" emptyDB).2.students =
      [{ student_id := 1, email := "", name := "Bob", created_at := 0, last_login := 0 }] ∧
    (get_or_create_student "" "Bob" emptyDB).2.students ≠ emptyDB.students := by
  decide

/-- **C9** (amended): the empty-email rejection lives in the UI layer —
`start_session` returns an error message before any backend or storage call
— while `get_or_create_student` itself performs no validation: called with
an empty email it always leaves a student row whose email is `""` in the
store. -/
theorem C9_empty_email_rejected_in_ui (db : DB) (name uiname : String) :
    start_session_validation "" uiname = some "Please enter your email" ∧
    ∃ st ∈ (get_or_create_student "" name db).2.students, st.email = "" := by
  constructor
  · simp [start_session_validation]
  · unfold get_or_create_student
    cases h : findStudent "" db.students with
    | some st =>
        have h2 : db.students.find? (fun st => st.email == "") = some st := h
        have hmem : st ∈ db.students := List.mem_of_find?_eq_some h2
        have hp := List.find?_some h2
        simp only []
        refine ⟨if st.student_id == st.student_id then
            { st with last_login := db.clock } else st, ?_, ?_⟩
        · exact List.mem_map.mpr ⟨st, hmem, rfl⟩
        · simp only [beq_self_eq_true, if_true]
          exact beq_iff_eq.mp hp
    | none =>
        simp only []
        refine ⟨{ student_id := db.nextStudentId, email := "", name := name,
                  created_at := db.clock, last_login := db.clock }, ?_, rfl⟩
        simp

/-- **C10**: the email argument of `get_session_name` is an ownership check —
for a session id present in the store, if no student row with the given
email owns a session with that id, the lookup returns `none`, exactly as for
an unknown id. -/
theorem C10_email_is_ownership_check (db : DB) (sid email : String)
    (_hex : ∃ s ∈ db.sessions, s.session_id = sid)
    (hown : ∀ s ∈ db.sessions, s.session_id = sid →
      ∀ st ∈ db.students, st.student_id = s.student_id → st.email ≠ email) :
    get_session_name sid email db = none := by
  unfold get_session_name
  have hnone : db.sessions.find?
      (fun s => s.session_id == sid && ownedBy email db.students s) = none := by
    rw [List.find?_eq_none]
    intro s hs
    simp only [Bool.and_eq_true, beq_iff_eq, not_and]
    intro hid
    rw [Bool.not_eq_true]
    unfold ownedBy
    rw [List.any_eq_false]
    intro st hst
    simp only [Bool.and_eq_true, beq_iff_eq, not_and]
    intro hsid
    exact fun he => hown s hs hid st hst hsid he
  rw [hnone]

theorem C10_witness :
    get_session_name "s1" "bob@example.com" twoStudentsDB = none :=
  C10_email_is_ownership_check twoStudentsDB "s1" "bob@example.com"
    (by decide) (by decide)


/-- `findStudent` ignores a row update that preserves emails. -/
theorem findStudent_map (email : String) (f : Student → Student)
    (hf : ∀ st, (f st).email = st.email) (l : List Student) :
    findStudent email (l.map f) = (findStudent email l).map f := by
  unfold findStudent
  rw [List.find?_map]
  have hp : ((fun st : Student => st.email == email) ∘ f) =
      (fun st : Student => st.email == email) := by
    funext st
    simp [Function.comp, hf st]
  rw [hp]

/-- One `get_or_create_student` call on a state where the email is present:
the existing id is returned, the row keeps its position, name and id, and
only its `last_login` is set to the transaction time. -/
theorem get_or_create_found (db : DB) (email name : String) (st : Student)
    (h : findStudent email db.students = some st) :
    (get_or_create_student email name db).1 = st.student_id ∧
    findStudent email (get_or_create_student email name db).2.students =
      some { st with last_login := db.clock } ∧
    (get_or_create_student email name db).2.clock = db.clock + 1 := by
  have hf : ∀ s : Student,
      ((if s.student_id == st.student_id then
          { s with last_login := db.clock } else s) : Student).email = s.email := by
    intro s
    by_cases hc : (s.student_id == st.student_id) = true <;> simp [hc]
  simp only [get_or_create_student, h]
  refine ⟨trivial, ?_, trivial⟩
  rw [findStudent_map email _ hf db.students, h]
  simp

/-- One `get_or_create_student` call on a state where the email is absent:
a fresh row is inserted with `created_at = last_login = now` and the fresh
id is returned. -/
theorem get_or_create_missing (db : DB) (email name : String)
    (h : findStudent email db.students = none) :
    (get_or_create_student email name db).1 = db.nextStudentId ∧
    findStudent email (get_or_create_student email name db).2.students =
      some { student_id := db.nextStudentId, email := email, name := name,
             created_at := db.clock, last_login := db.clock } ∧
    (get_or_create_student email name db).2.clock = db.clock + 1 := by
  simp only [get_or_create_student, h]
  refine ⟨trivial, ?_, trivial⟩
  unfold findStudent at h ⊢
  rw [List.find?_append, h]
  simp

/-- **C5**: `get_or_create_student` called twice with the same email returns
the same student id both times; the second call bumps the stored
`last_login` to a strictly later time and never overwrites the stored name
(the second call's name argument is ignored). -/
theorem C5_get_or_create_twice (db : DB) (email name1 name2 : String) :
    (get_or_create_student email name2 (get_or_create_student email name1 db).2).1 =
      (get_or_create_student email name1 db).1 ∧
    ∃ st1 st2,
      findStudent email (get_or_create_student email name1 db).2.students = some st1 ∧
      findStudent email
        (get_or_create_student email name2
          (get_or_create_student email name1 db).2).2.students = some st2 ∧
      st1.last_login < st2.last_login ∧
      st2.name = st1.name ∧
      st1.student_id = (get_or_create_student email name1 db).1 := by
  cases h : findStudent email db.students with
  | some st =>
      obtain ⟨hid1, hst1, hclock1⟩ := get_or_create_found db email name1 st h
      obtain ⟨hid2, hst2, _⟩ :=
        get_or_create_found (get_or_create_student email name1 db).2 email name2
          { st with last_login := db.clock } hst1
      refine ⟨?_, { st with last_login := db.clock },
        { { st with last_login := db.clock } with
            last_login := (get_or_create_student email name1 db).2.clock },
        hst1, hst2, ?_, rfl, by simp [hid1]⟩
      · rw [hid2, hid1]
      · simp [hclock1]
  | none =>
      obtain ⟨hid1, hst1, hclock1⟩ := get_or_create_missing db email name1 h
      obtain ⟨hid2, hst2, _⟩ :=
        get_or_create_found (get_or_create_student email name1 db).2 email name2
          { student_id := db.nextStudentId, email := email, name := name1,
            created_at := db.clock, last_login := db.clock } hst1
      refine ⟨?_, _, _, hst1, hst2, ?_, rfl, by simp [hid1]⟩
      · rw [hid2, hid1]
      · simp [hclock1]

/-! ## Message-log lemmas -/

theorem foldl_max_seq (l : List Message) (a : Nat) :
    l.foldl (fun acc m => max acc m.sequence_number) a =
      (l.map (fun m => m.sequence_number)).foldl max a := by
  induction l generalizing a with
  | nil => rfl
  | cons m ms ih => simp [List.foldl, ih]

theorem foldl_max_range' : ∀ (k a : Nat), (List.range' (a + 1) k).foldl max a = a + k
  | 0, a => rfl
  | k + 1, a => by
      rw [List.range'_succ, List.foldl_cons,
        Nat.max_eq_right (Nat.le_add_right a 1), foldl_max_range' k (a + 1)]
      omega

/-- On a session whose stored sequence numbers are exactly `1..k`, the
`COALESCE(MAX(sequence_number), 0) + 1` read returns `k + 1`. -/
theorem nextSeq_of_range (sid : String) (db : DB) (k : Nat)
    (h : (msgsOf sid db).map (fun m => m.sequence_number) = List.range' 1 k) :
    nextSeq sid db = k + 1 := by
  unfold nextSeq
  rw [foldl_max_seq, h]
  rw [show (1 : Nat) = 0 + 1 from rfl, foldl_max_range' k 0]
  omega

/-- The insert half of `save_message` appends exactly one row to the
session's message list. -/
theorem msgsOf_insertMessageRow (sid sender content : String) (seq : Nat) (db : DB) :
    msgsOf sid (insertMessageRow sid sender content seq db) =
      msgsOf sid db ++
        [{ message_id := db.nextMessageId, session_id := sid, sender_type := sender,
           content := content, sequence_number := seq, created_at := db.clock }] := by
  unfold msgsOf insertMessageRow
  rw [List.filter_append]
  simp

/-- State evolution of a sequential batch of appends: starting from a state
whose stored sequence numbers for the session are exactly `1..k`, the batch
extends them to `1..k+N` and appends the given `(sender, content)` pairs in
order. -/
theorem saveMessages_spec (sid : String) :
    ∀ (msgs : List (String × String)) (db : DB) (k : Nat),
      (msgsOf sid db).map (fun m => m.sequence_number) = List.range' 1 k →
      ((msgsOf sid (saveMessages sid msgs db)).map (fun m => m.sequence_number) =
          List.range' 1 (k + msgs.length)) ∧
      ((msgsOf sid (saveMessages sid msgs db)).map (fun m => (m.sender_type, m.content)) =
          (msgsOf sid db).map (fun m => (m.sender_type, m.content)) ++ msgs)
  | [], db, k, h => ⟨by simpa [saveMessages] using h, by simp [saveMessages]⟩
  | (sender, content) :: rest, db, k, h => by
      have hnext : nextSeq sid db = k + 1 := nextSeq_of_range sid db k h
      have hstep : msgsOf sid (save_message sid sender content db) =
          msgsOf sid db ++
            [{ message_id := db.nextMessageId, session_id := sid, sender_type := sender,
               content := content, sequence_number := nextSeq sid db,
               created_at := db.clock }] :=
        msgsOf_insertMessageRow sid sender content (nextSeq sid db) db
      have h1 : (msgsOf sid (save_message sid sender content db)).map
          (fun m => m.sequence_number) = List.range' 1 (k + 1) := by
        rw [hstep, List.map_append, h, hnext, List.range'_concat]
        simp
        omega
      obtain ⟨ha, hb⟩ :=
        saveMessages_spec sid rest (save_message sid sender content db) (k + 1) h1
      constructor
      · rw [show saveMessages sid ((sender, content) :: rest) db =
            saveMessages sid rest (save_message sid sender content db) from rfl, ha]
        congr 1
        simp only [List.length_cons]
        omega
      · rw [show saveMessages sid ((sender, content) :: rest) db =
            saveMessages sid rest (save_message sid sender content db) from rfl, hb,
          hstep, List.map_append]
        simp

/-- A message list whose sequence numbers read `1..n` in store order is
already sorted for the `ORDER BY sequence_number ASC` of
`get_conversation_history`. -/
theorem chain_of_range (l : List Message) (s n : Nat)
    (h : l.map (fun m => m.sequence_number) = List.range' s n) :
    List.Chain' (fun a b =>
      decide (a.sequence_number ≤ b.sequence_number) = true) l := by
  have hc : List.Chain' (fun a b : Nat => a < b)
      (l.map (fun m => m.sequence_number)) := by
    rw [h]
    exact chain_lt_range' n s
  rw [List.chain'_map] at hc
  exact hc.imp (fun a b hab => decide_eq_true (Nat.le_of_lt hab))

/-- **C3**: appending N messages to a session with no messages stores
sequence numbers exactly `1..N`, and `get_conversation_history` returns
exactly those N entries, ascending by sequence number, matching append
order. -/
theorem C3_append_then_history (db : DB) (sid : String) (msgs : List (String × String))
    (h : msgsOf sid db = []) :
    ((msgsOf sid (saveMessages sid msgs db)).map (fun m => m.sequence_number) =
        List.range' 1 msgs.length) ∧
    (get_conversation_history sid (saveMessages sid msgs db)).map
        (fun e => (e.role, e.content)) = msgs := by
  have h0 : (msgsOf sid db).map (fun m => m.sequence_number) = List.range' 1 0 := by
    rw [h]; rfl
  obtain ⟨ha, hb⟩ := saveMessages_spec sid msgs db 0 h0
  rw [Nat.zero_add] at ha
  refine ⟨ha, ?_⟩
  unfold get_conversation_history
  rw [sortLe_of_chain _ _ (chain_of_range _ 1 msgs.length ha), List.map_map]
  rw [show ((fun e : HistEntry => (e.role, e.content)) ∘
      (fun m : Message =>
        ({ role := m.sender_type, content := m.content,
           timestamp := m.created_at } : HistEntry))) =
      (fun m : Message => (m.sender_type, m.content)) from rfl]
  rw [hb, h]
  rfl

theorem C3_witness :
    ((msgsOf "s1" (saveMessages "s1" [("user", "hi"), ("assistant", "yo")] emptyDB)).map
        (fun m => m.sequence_number) = List.range' 1 2) ∧
    (get_conversation_history "s1"
        (saveMessages "s1" [("user", "hi"), ("assistant", "yo")] emptyDB)).map
      (fun e => (e.role, e.content)) = [("user", "hi"), ("assistant", "yo")] :=
  C3_append_then_history emptyDB "s1" [("user", "hi"), ("assistant", "yo")] (by decide)

/-- **C8**: round-trip — on any reachable session state (sequence numbers
`1..k`), appending a message and reading the history back yields the old
history plus one entry whose `content` is the very string passed to
`save_message` and whose `role` is the sender type passed. -/
theorem C8_roundtrip (db : DB) (sid sender content : String) (k : Nat)
    (h : (msgsOf sid db).map (fun m => m.sequence_number) = List.range' 1 k) :
    get_conversation_history sid (save_message sid sender content db) =
      get_conversation_history sid db ++
        [{ role := sender, content := content, timestamp := db.clock }] := by
  have hnext : nextSeq sid db = k + 1 := nextSeq_of_range sid db k h
  have hstep : msgsOf sid (save_message sid sender content db) =
      msgsOf sid db ++
        [{ message_id := db.nextMessageId, session_id := sid, sender_type := sender,
           content := content, sequence_number := nextSeq sid db,
           created_at := db.clock }] :=
    msgsOf_insertMessageRow sid sender content (nextSeq sid db) db
  have h1 : (msgsOf sid (save_message sid sender content db)).map
      (fun m => m.sequence_number) = List.range' 1 (k + 1) := by
    rw [hstep, List.map_append, h, hnext, List.range'_concat]
    simp
    omega
  unfold get_conversation_history
  rw [sortLe_of_chain _ _ (chain_of_range _ 1 (k + 1) h1),
    sortLe_of_chain _ _ (chain_of_range _ 1 k h), hstep, List.map_append]
  rfl

theorem C8_roundtrip_witness :
    get_conversation_history "s1" (save_message "s1" "user" "héllo\nwörld 🙂" emptyDB) =
      get_conversation_history "s1" emptyDB ++
        [{ role := "user", content := "héllo\nwörld 🙂", timestamp := 0 }] :=
  C8_roundtrip emptyDB "s1" "user" "héllo\nwörld 🙂" 0 (by decide)

/-! ## Session-creation lemmas -/

theorem newSessions_length (stu : Nat) (act : String) :
    ∀ (sids : List String) (t : Nat), (newSessions stu act sids t).length = sids.length
  | [], _ => rfl
  | _ :: rest, t => by simp [newSessions, newSessions_length stu act rest (t + 1)]

theorem newSessions_student_id (stu : Nat) (act : String) :
    ∀ (sids : List String) (t : Nat) (s : Session),
      s ∈ newSessions stu act sids t → s.student_id = stu
  | sid :: rest, t, s, hs => by
      rw [newSessions, List.mem_cons] at hs
      cases hs with
      | inl h => rw [h]
      | inr h => exact newSessions_student_id stu act rest (t + 1) s h

theorem newSessions_created_ge (stu : Nat) (act : String) :
    ∀ (sids : List String) (t : Nat) (s : Session),
      s ∈ newSessions stu act sids t → t ≤ s.created_at
  | sid :: rest, t, s, hs => by
      rw [newSessions, List.mem_cons] at hs
      cases hs with
      | inl h => rw [h]
      | inr h => exact Nat.le_of_succ_le (newSessions_created_ge stu act rest (t + 1) s h)

theorem newSessions_pairwise (stu : Nat) (act : String) :
    ∀ (sids : List String) (t : Nat),
      List.Pairwise (fun a b : Session => a.created_at < b.created_at)
        (newSessions stu act sids t)
  | [], _ => List.Pairwise.nil
  | sid :: rest, t => by
      rw [newSessions, List.pairwise_cons]
      refine ⟨?_, newSessions_pairwise stu act rest (t + 1)⟩
      intro s hs
      exact Nat.lt_of_succ_le (newSessions_created_ge stu act rest (t + 1) s hs)

/-- Component-wise evolution of a `createSessions` batch: students and
messages untouched, clock advanced once per create, sessions extended by the
freshly stamped rows. -/
theorem createSessions_state (stu : Nat) (act : String) :
    ∀ (sids : List String) (db : DB),
      (createSessions stu act sids db).2.students = db.students ∧
      (createSessions stu act sids db).2.messages = db.messages ∧
      (createSessions stu act sids db).2.clock = db.clock + sids.length ∧
      (createSessions stu act sids db).2.sessions =
        db.sessions ++ newSessions stu act sids db.clock
  | [], db => by simp [createSessions, newSessions]
  | sid :: rest, db => by
      obtain ⟨h1, h2, h3, h4⟩ :=
        createSessions_state stu act rest (create_session stu act sid db).2
      refine ⟨?_, ?_, ?_, ?_⟩
      · rw [show (createSessions stu act (sid :: rest) db).2 =
            (createSessions stu act rest (create_session stu act sid db).2).2 from rfl, h1]
        rfl
      · rw [show (createSessions stu act (sid :: rest) db).2 =
            (createSessions stu act rest (create_session stu act sid db).2).2 from rfl, h2]
        rfl
      · rw [show (createSessions stu act (sid :: rest) db).2 =
            (createSessions stu act rest (create_session stu act sid db).2).2 from rfl, h3]
        simp [create_session, List.length_cons]
        omega
      · rw [show (createSessions stu act (sid :: rest) db).2 =
            (createSessions stu act rest (create_session stu act sid db).2).2 from rfl, h4]
        simp [create_session, newSessions, List.append_assoc]

/-- The names returned by a `createSessions` batch continue the
`Session-{count+1}` numbering from the student's current session count. -/
theorem createSessions_results (stu : Nat) (act : String) :
    ∀ (sids : List String) (db : DB),
      (createSessions stu act sids db).1 =
        expectedNames sids (db.sessions.filter (fun s => s.student_id == stu)).length
  | [], db => rfl
  | sid :: rest, db => by
      have hcount : ((create_session stu act sid db).2.sessions.filter
          (fun s => s.student_id == stu)).length =
          (db.sessions.filter (fun s => s.student_id == stu)).length + 1 := by
        simp [create_session, List.filter_append]
      rw [show (createSessions stu act (sid :: rest) db).1 =
          (create_session stu act sid db).1 ::
            (createSessions stu act rest (create_session stu act sid db).2).1 from rfl]
      rw [createSessions_results stu act rest (create_session stu act sid db).2, hcount]
      rfl

theorem nameSessions_append (db : DB) (total : Nat) :
    ∀ (l1 l2 : List Session) (idx : Nat),
      nameSessions db total idx (l1 ++ l2) =
        nameSessions db total idx l1 ++ nameSessions db total (idx + l1.length) l2
  | [], l2, idx => by simp [nameSessions]
  | s :: rest, l2, idx => by
      rw [show idx + (s :: rest).length = idx + 1 + rest.length by
        simp only [List.length_cons]; omega]
      rw [List.cons_append, nameSessions, nameSessions,
        nameSessions_append db total rest l2 (idx + 1), List.cons_append]

/-- The listing loop applied to the reversed batch of fresh sessions
reproduces the creation-time names: entry `idx` of the descending list is
named `Session-{total - idx}`, which matches `expectedNames` reversed. -/
theorem nameSessions_newSessions (db : DB) (stu : Nat) (act : String) :
    ∀ (sids : List String) (t b idx total : Nat),
      total = idx + b + sids.length →
      (nameSessions db total idx ((newSessions stu act sids t).reverse)).map
        (fun e => (e.session_id, e.session_name)) = (expectedNames sids b).reverse
  | [], _, _, _, _, _ => rfl
  | sid :: rest, t, b, idx, total, htot => by
      rw [newSessions, List.reverse_cons,
        nameSessions_append db total ((newSessions stu act rest (t + 1)).reverse) _ idx,
        List.map_append,
        nameSessions_newSessions db stu act rest (t + 1) (b + 1) idx total
          (by rw [htot, List.length_cons]; omega)]
      rw [expectedNames, List.reverse_cons]
      congr 1
      rw [List.length_reverse, newSessions_length]
      simp only [nameSessions, List.map_cons, List.map_nil]
      rw [show total - (idx + rest.length) = b + 1 by
        simp only [List.length_cons] at htot; omega]

/-- **C1**: for a student with no prior sessions, a batch of creations
returns the names `Session-1, …, Session-N` in creation order, and a later
`get_user_sessions` for that student's email lists exactly the created
sessions newest-first carrying those very same names (so `sN` appears first
as `Session-N`): the creation-time count and the listing-time
rank-from-total computations agree on every session. -/
theorem C1_creation_and_listing_agree (db : DB) (stu : Nat) (email act : String)
    (sids : List String)
    (hcount : db.sessions.filter (fun s => s.student_id == stu) = [])
    (hmine : db.sessions.filter (ownedBy email db.students) = [])
    (hstu : db.students.any (fun st => st.student_id == stu && st.email == email) = true) :
    (createSessions stu act sids db).1 = expectedNames sids 0 ∧
    (get_user_sessions email (createSessions stu act sids db).2).map
      (fun e => (e.session_id, e.session_name)) = (expectedNames sids 0).reverse := by
  obtain ⟨hstud, hmsg, hclock, hsess⟩ := createSessions_state stu act sids db
  constructor
  · rw [createSessions_results stu act sids db, hcount]
    rfl
  · have hfil : (newSessions stu act sids db.clock).filter (ownedBy email db.students) =
        newSessions stu act sids db.clock := by
      rw [List.filter_eq_self]
      intro s hs
      unfold ownedBy
      rw [newSessions_student_id stu act sids db.clock s hs]
      exact hstu
    have hsort : sortLe (fun a b : Session => decide (b.created_at ≤ a.created_at))
        (newSessions stu act sids db.clock) =
        (newSessions stu act sids db.clock).reverse := by
      apply sortLe_reverse_of_pairwise
      exact (newSessions_pairwise stu act sids db.clock).imp
        (fun hab => decide_eq_false (Nat.not_le.mpr hab))
    simp only [get_user_sessions]
    rw [hstud, hsess, List.filter_append, hmine, List.nil_append, hfil, hsort,
      List.length_reverse, newSessions_length]
    exact nameSessions_newSessions (createSessions stu act sids db).2 stu act sids
      db.clock 0 0 sids.length (by omega)

theorem C1_witness :
    (createSessions 1 "Pritam" ["s1", "s2", "s3"] aliceDB).1 =
      expectedNames ["s1", "s2", "s3"] 0 ∧
    (get_user_sessions "alice@example.com"
        (createSessions 1 "Pritam" ["s1", "s2", "s3"] aliceDB).2).map
      (fun e => (e.session_id, e.session_name)) =
      (expectedNames ["s1", "s2", "s3"] 0).reverse :=
  C1_creation_and_listing_agree aliceDB 1 "alice@example.com" "Pritam" ["s1", "s2", "s3"]
    (by decide) (by decide) (by decide)
